import Mathlib

/-!
# Endpoints: request pipeline

A shallow embedding of three source files of the `endpoints` repository:

* `es5/response-formatter/lib/read.js`  (the read response formatter),
* `src/controller/index.js`             (the `Controller` and its handler factories),
* `modules/source-bookshelf/lib/base_methods.js` (the store adapter's `create` and `update`).

JavaScript values are embedded as an inductive type; a thrown exception is the
`error` side of `Except`. Collaborators whose code is not part of these files
(`./error`, `Kapow`, the formatter function, `configure`, `validate`, `process`,
the Bookshelf model operations) are parameters.
-/

namespace Endpoints

/-! ## JavaScript values -/

/-- JavaScript values. Numbers are integers plus `NaN`. An object is its list of own
properties (the first entry for a key is the one that counts); an array or a collection
is an object that carries a `length` property. -/
inductive Value where
  | undefined : Value
  | null : Value
  | bool (b : Bool) : Value
  | num (n : Int) : Value
  | nan : Value
  | str (s : String) : Value
  | obj (props : List (String × Value)) : Value

/-- Thrown JavaScript exceptions: a `TypeError` raised by the language itself, or an
`Error` created with `new Error(message)`. -/
inductive JsError where
  | typeError (message : String) : JsError
  | error (message : String) : JsError
  deriving DecidableEq, Repr

namespace Value

/-- The boolean coercion of a value: `undefined`, `null`, `false`, `0`, `NaN` and `''`
are falsy, every other value is truthy. -/
def truthy : Value → Bool
  | undefined => false
  | null => false
  | bool b => b
  | num n => n != 0
  | nan => false
  | str s => s != ""
  | obj _ => true

/-- Own property of a value, when it has one: object properties, and the `length`
of a string. -/
def ownProp : Value → String → Option Value
  | obj props, key => props.lookup key
  | str s, key => if key = "length" then some (num s.length) else none
  | _, _ => none

/-- The member expression `v.key`: a `TypeError` on `undefined` and `null`, the
property value when there is one, `undefined` otherwise. -/
def getProp (v : Value) (key : String) : Except JsError Value :=
  match v with
  | undefined => .error (.typeError ("Cannot read property '" ++ key ++ "' of undefined"))
  | null => .error (.typeError ("Cannot read property '" ++ key ++ "' of null"))
  | _ => .ok ((v.ownProp key).getD undefined)

/-- Strict equality `v === n` with a number literal. -/
def isNum : Value → Int → Bool
  | num k, n => k == n
  | _, _ => false

/-- Strict equality `v === s` with a string literal. -/
def isStr : Value → String → Bool
  | str t, s => t == s
  | _, _ => false

/-- Strict equality `v === true`. -/
def isTrue : Value → Bool
  | bool b => b
  | _ => false

end Value

open Value

/-! ## `response-formatter/lib/read.js` -/

/-- The object literal handed to the formatter: the six shaping fields read off `data`. -/
def shapingMetadata (data : Value) : Except JsError Value := do
  let singleResult ← data.getProp "singleResult"
  let relations ← data.getProp "relations"
  let mode ← data.getProp "mode"
  let baseType ← data.getProp "baseType"
  let baseId ← data.getProp "baseId"
  let baseRelation ← data.getProp "baseRelation"
  return obj [("singleResult", singleResult), ("relations", relations), ("mode", mode),
    ("baseType", baseType), ("baseId", baseId), ("baseRelation", baseRelation)]

/-- The left operand of the guard, `!data || data.length === 0 && data.singleResult`,
as the boolean the enclosing `&&` sees. -/
def notFoundOperand (data : Value) : Except JsError Bool :=
  if !data.truthy then .ok true
  else do
    let length ← data.getProp "length"
    if length.isNum 0 then
      let singleResult ← data.getProp "singleResult"
      return singleResult.truthy
    else return false

/-- The guard `(!data || data.length === 0 && data.singleResult) && data.mode !== 'related'`,
evaluated left to right with short-circuiting. -/
def notFoundGuard (data : Value) : Except JsError Bool := do
  let left ← notFoundOperand data
  if left then
    let mode ← data.getProp "mode"
    return !mode.isStr "related"
  else return false

/-- The function exported by `read.js`. Its collaborators `error` (`./error`) and `Kapow`
are parameters, as is the protocol formatter. -/
def read (error : Value → Value) (Kapow : Int → String → Value)
    (formatter : Value → Value → Value) (config : Value) (data : Value) :
    Except JsError Value := do
  let _ := config
  if (← notFoundGuard data) then
    return error (Kapow 404 "Resource not found.")
  let metadata ← shapingMetadata data
  return obj [("code", str "200"), ("data", formatter data metadata)]

/-- Modelled from the spec: the `Kapow` error constructor, an error object carrying its
HTTP status and its message. -/
def kapowSpec (status : Int) (message : String) : Value :=
  obj [("httpStatus", num status), ("message", str message)]

/-- Modelled from the spec: the `./error` helper, which is not among the source files.
The failure envelope is `{code, errors}` with a single error object and no `data` field. -/
def errorSpec (err : Value) : Value :=
  obj [("code", (err.ownProp "httpStatus").getD undefined),
       ("errors", obj [("length", num 1), ("0", err)])]

/-- The claim's notion of a falsy value that is present: `false`, `0`, `NaN` or `''`. -/
def falsyPrimitive : Value → Bool
  | .bool b => !b
  | .num n => n == 0
  | .nan => true
  | .str s => s == ""
  | _ => false

/-- An empty sequence: an array or collection whose `length` is `0`. -/
def emptySequence (data : Value) : Bool :=
  match data.ownProp "length" with
  | some v => data.truthy && v.isNum 0
  | none => false

/-- The value of `data.key`, `undefined` where `data` has no such property. -/
def field (data : Value) (key : String) : Value :=
  (data.ownProp key).getD undefined

/-- The success envelope of the read formatter as the source builds it. -/
def successEnvelope (formatter : Value → Value → Value) (data : Value) : Value :=
  obj [("code", str "200"),
       ("data", formatter data (obj [("singleResult", field data "singleResult"),
         ("relations", field data "relations"), ("mode", field data "mode"),
         ("baseType", field data "baseType"), ("baseId", field data "baseId"),
         ("baseRelation", field data "baseRelation")]))]

/-! ## Plain objects and the two `lodash` helpers the sources call -/

/-- A plain object with values in `V`: its own properties, looked up by first match. -/
abbrev Obj (V : Type) := List (String × V)

/-- The assignment `o[key] = v`: overwrite the property in place, or add it. -/
def assign {V : Type} : Obj V → String → V → Obj V
  | [], key, v => [(key, v)]
  | (k, w) :: rest, key, v =>
    if k = key then (k, v) :: rest else (k, w) :: assign rest key v

/-- The call `_.extend(target, source)`: for every own key of `source`, in order,
`target[key] = source[key]`; the (mutated) target is the result. -/
def extend {V : Type} (target source : Obj V) : Obj V :=
  (source.map Prod.fst).foldl
    (fun acc key =>
      match source.lookup key with
      | some v => assign acc key v
      | none => acc)
    target

/-- The call `_.isEqual(a, b)` on two flat records: every own key of either one is a key
of the other, with an equal value. -/
def isEqual {V : Type} [DecidableEq V] (a b : Obj V) : Bool :=
  (a.map Prod.fst).all (fun key => decide (a.lookup key = b.lookup key)) &&
  (b.map Prod.fst).all (fun key => decide (a.lookup key = b.lookup key))

/-! ## `src/controller/index.js` -/

/-- A `Controller` instance: the own properties that `_.extend(this, opts)` put on it. -/
structure Controller where
  props : Obj Value

/-- The member expression `this.adapter` on an instance. -/
def Controller.adapter (self : Controller) : Value :=
  (self.props.lookup "adapter").getD undefined

/-- The own enumerable properties of a value, which is what `_.extend` copies. -/
def ownEnumerable : Value → Obj Value
  | .obj props => props
  | _ => []

/-- The constructor `constructor (opts={})`: the default applies to an omitted
(`undefined`) argument only. -/
def Controller.constructor (opts : Value) : Except JsError Controller := do
  let opts := match opts with
    | .undefined => obj []
    | other => other
  let adapter ← opts.getProp "adapter"
  if !adapter.truthy then
    throw (JsError.error "No adapter specified.")
  return { props := extend [] (ownEnumerable opts) }

/-- A call made to one of the three collaborators of the handler factory. -/
inductive Call (C : Type) where
  | configure (method : String) (opts : Value) : Call C
  | validate (method : String) (adapter : Value) (config : C) : Call C
  | process (config : C) (adapter : Value) : Call C

/-- What a handler factory does: the handler it returns or the error it throws, and
the collaborator calls it made, in order. -/
structure Outcome (C H : Type) where
  result : Except JsError H
  calls : List (Call C)

/-- The function returned by `Controller.method(method)`, applied to `this` and `opts`.
The collaborators `configure`, `validate` and `process` (`./lib/...`) are parameters. -/
def Controller.method {C H : Type} (configure : String → Value → C)
    (validate : String → Value → C → List String) (process : C → Value → H)
    (method : String) (self : Controller) (opts : Value) : Outcome C H :=
  let adapter := self.adapter
  let config := configure method opts
  let validationFailures := validate method adapter config
  if validationFailures.length ≠ 0 then
    { result := .error (JsError.error (String.intercalate "\n" validationFailures))
      calls := [.configure method opts, .validate method adapter config] }
  else
    { result := .ok (process config adapter)
      calls := [.configure method opts, .validate method adapter config,
        .process config adapter] }

/-- The factory `Controller.prototype.create = Controller.method('create')`. -/
def Controller.create {C H : Type} (configure : String → Value → C)
    (validate : String → Value → C → List String) (process : C → Value → H)
    (self : Controller) (opts : Value) : Outcome C H :=
  Controller.method configure validate process "create" self opts

/-- The factory `Controller.prototype.read = Controller.method('read')`. -/
def Controller.read {C H : Type} (configure : String → Value → C)
    (validate : String → Value → C → List String) (process : C → Value → H)
    (self : Controller) (opts : Value) : Outcome C H :=
  Controller.method configure validate process "read" self opts

/-- The factory `Controller.prototype.update = Controller.method('update')`. -/
def Controller.update {C H : Type} (configure : String → Value → C)
    (validate : String → Value → C → List String) (process : C → Value → H)
    (self : Controller) (opts : Value) : Outcome C H :=
  Controller.method configure validate process "update" self opts

/-- The factory `Controller.prototype.destroy = Controller.method('destroy')`. -/
def Controller.destroy {C H : Type} (configure : String → Value → C)
    (validate : String → Value → C → List String) (process : C → Value → H)
    (self : Controller) (opts : Value) : Outcome C H :=
  Controller.method configure validate process "destroy" self opts

/-- Whether a factory threw. -/
def Outcome.threw {C H : Type} (o : Outcome C H) : Bool :=
  match o.result with
  | .error _ => true
  | .ok _ => false

/-- Whether a call is a call to `process`. -/
def Call.isProcess {C : Type} : Call C → Bool
  | .process _ _ => true
  | _ => false

/-- The claim's condition on `opts`: the `adapter` option is missing or falsy. -/
def adapterMissingOrFalsy (opts : Value) : Bool :=
  match opts.ownProp "adapter" with
  | some v => !v.truthy
  | none => true

/-! ## `modules/source-bookshelf/lib/base_methods.js` -/

/-- A to-many relation to attach: `{name, ids}`. -/
structure RelationAttachment where
  name : String
  ids : List String
  deriving DecidableEq, Repr

/-- The Bookshelf model operations `update` calls on `this`; Bookshelf is an external
library, so they are parameters: `save(params, {patch: true, method: 'update'})`,
`related(name).detach()`, `related(name).attach(ids)` and `toJSON()`. -/
structure ModelOps (M V : Type) where
  save : M → Obj V → M
  detach : M → String → M
  attach : M → String → List String → M
  toJSON : M → Obj V

/-- The relation steps of `update`. `bPromise.map` calls its mapper on every entry
before any promise settles, so `model.related(rel.name).detach()` is issued for every
entry, in list order, before the first `.then` callback runs; the callbacks then issue
`model.related(rel.name).attach(rel.ids)`, in the order the detaches were issued. -/
def relationSteps {M V : Type} (ops : ModelOps M V) (model : M)
    (toManyRels : List RelationAttachment) : M :=
  let detached := toManyRels.foldl (fun m rel => ops.detach m rel.name) model
  toManyRels.foldl (fun m rel => ops.attach m rel.name rel.ids) detached

/-- What `update` leaves behind: the value the promise resolves to (`none` is `null`),
the model after the steps, `previous` as `_.extend` mutated it, and the console output. -/
structure UpdateOutcome (M V : Type) where
  result : Option M
  model : M
  previous : Obj V
  console : List (Obj V)

/-- The method `source.model.prototype.update(params, toManyRels, previous)`. -/
def update {M V : Type} [DecidableEq V] (ops : ModelOps M V) (self : M) (params : Obj V)
    (toManyRels : List RelationAttachment) (previous : Obj V) : UpdateOutcome M V :=
  let clientState := extend previous params
  let saved := ops.save self params
  let model := relationSteps ops saved toManyRels
  { result := if isEqual (ops.toJSON model) clientState then none else some model
    model := model
    previous := clientState
    console := [ops.toJSON saved] }

/-- A stored record: its id, its attributes and, per relation name, the related ids. -/
structure Record (V : Type) where
  id : Nat
  attributes : Obj V
  related : Obj (List String)

/-- The related ids of a record under a relation name. -/
def Record.relationIds {V : Type} (r : Record V) (name : String) : List String :=
  (r.related.lookup name).getD []

/-- The store of the claims: a `save` that is a plain partial merge of `params` into the
record, relation tables kept beside the attributes, and `toJSON` giving the attributes. -/
def mergeStore (V : Type) : ModelOps (Record V) V where
  save := fun m params => { m with attributes := extend m.attributes params }
  detach := fun m name => { m with related := assign m.related name [] }
  attach := fun m name ids =>
    { m with related := assign m.related name (m.relationIds name ++ ids) }
  toJSON := fun m => m.attributes

/-- A table of records, the newest first, with the id the next insert gets. -/
structure Store (V : Type) where
  records : List (Record V)
  nextId : Nat

/-- The call `forge(params).save(null, {method: 'insert'})` on a store where save
inserts the record: a new record with a fresh id, the given attributes and no relations. -/
def Store.insert {V : Type} (s : Store V) (params : Obj V) : Store V × Record V :=
  let model : Record V := { id := s.nextId, attributes := params, related := [] }
  ({ records := model :: s.records, nextId := s.nextId + 1 }, model)

/-- The call `model.related(name).attach(ids)` on a store where attach adds the given
ids to the named relation of the record with the model's id. -/
def Store.attach {V : Type} (s : Store V) (id : Nat) (name : String) (ids : List String) :
    Store V :=
  { s with records := s.records.map (fun r =>
      if r.id = id then
        { r with related := assign r.related name (r.relationIds name ++ ids) }
      else r) }

/-- The call `forge({id}).fetch()`: the stored record with that id, `none` (`null`) when
there is none. -/
def Store.fetch {V : Type} (s : Store V) (id : Nat) : Option (Record V) :=
  s.records.find? (fun r => r.id = id)

/-- The function `source.model.create(params, toManyRels)`, on the store above. The
attachments that `bPromise.map` starts are taken in list order. -/
def create {V : Type} (s : Store V) (params : Obj V)
    (toManyRels : List RelationAttachment) : Store V × Option (Record V) :=
  let (s1, model) := s.insert params
  let s2 := toManyRels.foldl (fun acc rel => acc.attach model.id rel.name rel.ids) s1
  (s2, s2.fetch model.id)

/-- The relation table of one record after the attachments, taken in list order. -/
def attachAll (related : Obj (List String)) (toManyRels : List RelationAttachment) :
    Obj (List String) :=
  toManyRels.foldl
    (fun acc rel => assign acc rel.name ((acc.lookup rel.name).getD [] ++ rel.ids)) related

/-- The spec's "`previous` merged with `params`, `params` winning on conflict", as the
value each key has. -/
def mergedWith {V : Type} (previous params : Obj V) (key : String) : Option V :=
  match params.lookup key with
  | some v => some v
  | none => previous.lookup key

/-- The spec's deep equality of a flat record with a state given key by key. -/
def DeepEqual {V : Type} (state : Obj V) (expected : String → Option V) : Prop :=
  ∀ key, state.lookup key = expected key

/-- The update made an observable change: some attribute in `params` differs from its
value in the state before. -/
def observableChange {V : Type} [DecidableEq V] (s params : Obj V) : Bool :=
  (params.map Prod.fst).any (fun key => decide (params.lookup key ≠ s.lookup key))

/-! ## Theorems -/

/-! ### Facts about plain objects -/

theorem lookup_cons_ite {V : Type} (k0 : String) (w : V) (rest : Obj V) (key : String) :
    List.lookup key ((k0, w) :: rest) = if key = k0 then some w else rest.lookup key := by
  by_cases h : key = k0
  · subst h
    simp [List.lookup]
  · have hb : (key == k0) = false := by simpa using h
    simp only [List.lookup, hb, h, if_false]

theorem lookup_assign {V : Type} (o : Obj V) (k key : String) (v : V) :
    (assign o k v).lookup key = if key = k then some v else o.lookup key := by
  induction o with
  | nil =>
    show List.lookup key [(k, v)] = _
    rw [lookup_cons_ite]
  | cons e rest ih =>
    obtain ⟨k0, w⟩ := e
    by_cases h0 : k0 = k
    · subst h0
      simp only [assign, if_true, lookup_cons_ite]
      by_cases h : key = k0 <;> simp [h]
    · simp only [assign, h0, if_false, lookup_cons_ite, ih]
      by_cases h : key = k
      · subst h
        have hne : ¬ key = k0 := fun h => h0 h.symm
        simp [hne]
      · simp [h]

theorem lookup_isSome_iff_mem_keys {V : Type} (o : Obj V) (key : String) :
    (o.lookup key).isSome = true ↔ key ∈ o.map Prod.fst := by
  induction o with
  | nil => simp
  | cons e rest ih =>
    obtain ⟨k0, w⟩ := e
    rw [lookup_cons_ite]
    by_cases h : key = k0
    · simp [h]
    · simp only [h, if_false, ih, List.map_cons, List.mem_cons, false_or]

theorem lookup_eq_none_of_not_mem {V : Type} (o : Obj V) (key : String)
    (h : key ∉ o.map Prod.fst) : o.lookup key = none := by
  cases hl : o.lookup key with
  | none => rfl
  | some v =>
    exact absurd ((lookup_isSome_iff_mem_keys o key).1 (by simp [hl])) h

theorem lookup_foldl_assign {V : Type} (source : Obj V) (keys : List String) (target : Obj V)
    (key : String) :
    (keys.foldl (fun acc k =>
        match source.lookup k with
        | some v => assign acc k v
        | none => acc) target).lookup key
      = if key ∈ keys then mergedWith target source key else target.lookup key := by
  induction keys generalizing target with
  | nil => simp
  | cons k rest ih =>
    simp only [List.foldl_cons, ih, List.mem_cons]
    by_cases hr : key ∈ rest
    · simp only [hr, or_true, if_true]
      unfold mergedWith
      cases hs : source.lookup k with
      | none => rfl
      | some v =>
        simp only [lookup_assign]
        by_cases hk : key = k
        · subst hk
          simp [hs]
        · simp [hk]
    · simp only [hr, or_false, if_false]
      by_cases hk : key = k
      · subst hk
        unfold mergedWith
        cases hs : source.lookup key with
        | none => simp
        | some v => simp [lookup_assign]
      · simp only [hk, if_false]
        cases hs : source.lookup k with
        | none => rfl
        | some v => simp [lookup_assign, hk]

/-- The code's `_.extend` computes the spec's merge: key by key, `params` wins. -/
theorem lookup_extend {V : Type} (target source : Obj V) (key : String) :
    (extend target source).lookup key = mergedWith target source key := by
  unfold extend
  rw [lookup_foldl_assign]
  by_cases h : key ∈ source.map Prod.fst
  · simp [h]
  · simp only [h, if_false]
    unfold mergedWith
    rw [lookup_eq_none_of_not_mem source key h]

/-- The code's `_.isEqual` decides equality of two flat records key by key. -/
theorem isEqual_iff {V : Type} [DecidableEq V] (a b : Obj V) :
    isEqual a b = true ↔ ∀ key, a.lookup key = b.lookup key := by
  unfold isEqual
  simp only [Bool.and_eq_true, List.all_eq_true, decide_eq_true_eq]
  constructor
  · rintro ⟨ha, hb⟩ key
    by_cases h1 : key ∈ a.map Prod.fst
    · exact ha key h1
    · by_cases h2 : key ∈ b.map Prod.fst
      · exact hb key h2
      · rw [lookup_eq_none_of_not_mem a key h1, lookup_eq_none_of_not_mem b key h2]
  · intro h
    exact ⟨fun key _ => h key, fun key _ => h key⟩

/-! ### Facts about the read formatter -/

theorem getProp_of_truthy (data : Value) (key : String) (h : data.truthy = true) :
    data.getProp key = .ok (field data key) := by
  cases data <;> simp_all [Value.truthy, Value.getProp, field]

theorem getProp_of_falsyPrimitive (data : Value) (key : String)
    (h : falsyPrimitive data = true) : data.getProp key = .ok (field data key) := by
  cases data <;> simp_all [falsyPrimitive, Value.getProp, field]

theorem truthy_of_falsyPrimitive (data : Value) (h : falsyPrimitive data = true) :
    data.truthy = false := by
  cases data <;> simp_all [falsyPrimitive, Value.truthy]

theorem shapingMetadata_of_getProp (data : Value)
    (h : ∀ key, data.getProp key = .ok (field data key)) :
    shapingMetadata data = .ok (obj [("singleResult", field data "singleResult"),
      ("relations", field data "relations"), ("mode", field data "mode"),
      ("baseType", field data "baseType"), ("baseId", field data "baseId"),
      ("baseRelation", field data "baseRelation")]) := by
  simp only [shapingMetadata, h]
  rfl

theorem emptySequence_iff (data : Value) :
    emptySequence data = true ↔
      data.truthy = true ∧ (data.ownProp "length").isSome = true
        ∧ (field data "length").isNum 0 = true := by
  unfold emptySequence field
  cases h : data.ownProp "length" <;> simp [Value.isNum]

/-- For data that is present, the guard's left operand is the claim's not-found
condition: falsy data, or an empty sequence with a truthy `singleResult`. -/
theorem notFoundOperand_present (data : Value)
    (h : ∀ key, data.getProp key = .ok (field data key)) :
    notFoundOperand data = .ok (!data.truthy ||
      (emptySequence data && (field data "singleResult").truthy)) := by
  unfold notFoundOperand
  by_cases ht : data.truthy = true
  · simp only [ht, Bool.not_true, Bool.false_eq_true, ↓reduceIte, h, Bool.false_or]
    unfold emptySequence field
    cases hl : data.ownProp "length" with
    | none => simp [Value.isNum]; rfl
    | some v =>
      by_cases hz : v.isNum 0 = true
      · simp [hz, ht, bind, Except.bind, pure, Except.pure]
      · simp [hz, bind, Except.bind, pure, Except.pure]
  · simp [ht]

/-- Present data that meets the not-found condition outside related mode gets the
404 envelope built by `error(Kapow(404, 'Resource not found.'))`. -/
theorem read_not_found_present (error : Value → Value) (Kapow : Int → String → Value)
    (formatter : Value → Value → Value) (config data : Value)
    (hdata : falsyPrimitive data = true ∨
      (emptySequence data = true ∧ (field data "singleResult").isTrue = true))
    (hmode : (field data "mode").isStr "related" = false) :
    read error Kapow formatter config data
      = .ok (error (Kapow 404 "Resource not found.")) := by
  have hget : ∀ key, data.getProp key = .ok (field data key) := by
    intro key
    rcases hdata with h | ⟨h, _⟩
    · exact getProp_of_falsyPrimitive data key h
    · exact getProp_of_truthy data key ((emptySequence_iff data).1 h).1
  have hleft : notFoundOperand data = .ok true := by
    rw [notFoundOperand_present data hget]
    rcases hdata with h | ⟨h, hs⟩
    · simp [truthy_of_falsyPrimitive data h]
    · have : (field data "singleResult").truthy = true := by
        cases hv : field data "singleResult" <;> simp_all [Value.isTrue, Value.truthy]
      simp [h, this]
  have hguard : notFoundGuard data = .ok true := by
    unfold notFoundGuard
    rw [hleft]
    simp [hget, hmode, bind, Except.bind, pure, Except.pure]
  unfold read
  rw [hguard]
  rfl

/-- The spec's failure envelope for the 404 has no `data` field and carries the code. -/
theorem errorSpec_not_found_shape :
    (errorSpec (kapowSpec 404 "Resource not found.")).ownProp "data" = none ∧
    ((errorSpec (kapowSpec 404 "Resource not found.")).ownProp "code").isSome = true := by
  constructor <;> rfl

/-- Data whose own `mode` is `'related'` always gets the success envelope. -/
theorem read_related_present (error : Value → Value) (Kapow : Int → String → Value)
    (formatter : Value → Value → Value) (config data : Value)
    (hmode : data.getProp "mode" = .ok (str "related")) :
    read error Kapow formatter config data = .ok (successEnvelope formatter data) := by
  have hget : ∀ key, data.getProp key = .ok (field data key) := by
    intro key
    cases data <;> simp_all [Value.getProp, field]
  have hm : field data "mode" = str "related" := by
    have := hget "mode"
    rw [hmode] at this
    exact (Except.ok.inj this).symm
  have hguard : notFoundGuard data = .ok false := by
    unfold notFoundGuard
    rw [notFoundOperand_present data hget]
    cases (!data.truthy || (emptySequence data && (field data "singleResult").truthy))
    · rfl
    · simp [hget, hm, bind, Except.bind, pure, Except.pure, Value.isStr]
  unfold read
  rw [hguard, shapingMetadata_of_getProp data hget]
  rfl

/-! ### The read formatter: the claims -/

/-- C1, the code at the failing input: for absent data (`null` or `undefined`) the read
formatter does not return the 404 envelope; the guard reads `data.mode` after `!data`
has succeeded, and that member access throws a `TypeError`. -/
theorem read_absent_data_throws (error : Value → Value) (Kapow : Int → String → Value)
    (formatter : Value → Value → Value) (config : Value) :
    read error Kapow formatter config Value.null
        = .error (JsError.typeError "Cannot read property 'mode' of null") ∧
    read error Kapow formatter config Value.undefined
        = .error (JsError.typeError "Cannot read property 'mode' of undefined") :=
  ⟨rfl, rfl⟩

/-- C2, the code at the failing input: a read whose configuration says `mode: 'related'`
and whose data is absent does not return the success envelope, it throws a `TypeError`,
because the mode is read off the absent data. -/
theorem read_related_absent_data_throws (error : Value → Value)
    (Kapow : Int → String → Value) (formatter : Value → Value → Value) :
    read error Kapow formatter (obj [("mode", str "related")]) Value.null
        = .error (JsError.typeError "Cannot read property 'mode' of null") ∧
    read error Kapow formatter (obj [("mode", str "related")]) Value.null
        ≠ .ok (successEnvelope formatter Value.null) := by
  constructor
  · rfl
  · intro h
    have h2 : read error Kapow formatter (obj [("mode", str "related")]) Value.null
        = .error (JsError.typeError "Cannot read property 'mode' of null") := rfl
    rw [h2] at h
    cases h

/-- C3 as stated fails: for a single record and the formatter that returns its data, the
envelope's `code` is the string `'200'`, so the result is not `{code: 200, data: ...}`
with the number `200`. -/
theorem read_success_code_is_not_the_number :
    read errorSpec kapowSpec (fun data _ => data) Value.undefined (obj [("id", num 1)])
      ≠ .ok (obj [("code", num 200), ("data", obj [("id", num 1)])]) := by
  have h : read errorSpec kapowSpec (fun data _ => data) Value.undefined (obj [("id", num 1)])
      = .ok (obj [("code", str "200"), ("data", obj [("id", num 1)])]) := rfl
  rw [h]
  simp

/-- C3 amended: for data that is truthy and is not an empty sequence with a truthy
`singleResult`, the read formatter returns exactly `{code: '200', data: formatter(data, m)}`
with the string `'200'`, where `m` has exactly the six shaping fields `singleResult`,
`relations`, `mode`, `baseType`, `baseId`, `baseRelation`, each the same-named field
of `data`. -/
theorem read_success (error : Value → Value) (Kapow : Int → String → Value)
    (formatter : Value → Value → Value) (config data : Value)
    (htruthy : data.truthy = true)
    (hfound : ¬ (emptySequence data = true ∧ (field data "singleResult").truthy = true)) :
    read error Kapow formatter config data
      = .ok (obj [("code", str "200"),
          ("data", formatter data (obj [("singleResult", field data "singleResult"),
            ("relations", field data "relations"), ("mode", field data "mode"),
            ("baseType", field data "baseType"), ("baseId", field data "baseId"),
            ("baseRelation", field data "baseRelation")]))]) := by
  have hget : ∀ key, data.getProp key = .ok (field data key) :=
    fun key => getProp_of_truthy data key htruthy
  have hguard : notFoundGuard data = .ok false := by
    unfold notFoundGuard
    rw [notFoundOperand_present data hget]
    have : (!data.truthy || (emptySequence data && (field data "singleResult").truthy))
        = false := by
      rw [htruthy]
      cases he : emptySequence data
      · rfl
      · cases hs : (field data "singleResult").truthy
        · rfl
        · exact absurd ⟨he, hs⟩ hfound
    rw [this]
    rfl
  unfold read
  rw [hguard, shapingMetadata_of_getProp data hget]
  rfl

/-- An empty collection with `singleResult` false is formatted with status `'200'`. -/
theorem read_success_witness :
    read errorSpec kapowSpec (fun data _ => data) Value.undefined
        (obj [("length", num 0), ("singleResult", Value.bool false)])
      = .ok (obj [("code", str "200"),
          ("data", obj [("length", num 0), ("singleResult", Value.bool false)])]) :=
  read_success errorSpec kapowSpec (fun data _ => data) Value.undefined
    (obj [("length", num 0), ("singleResult", Value.bool false)]) rfl
    (by simp [field, Value.ownProp, List.lookup, Value.truthy])

/-! ### The controller: the claims -/

/-- C4: the handler factory `Controller.method(method)` throws if and only if
`validate(method, adapter, configure(method, opts))` is a non-empty list; when it throws,
the message is the failure messages joined in order with a newline, and `process` is
not called. This holds for every method name, the four CRUD names among them. -/
theorem method_throws_iff_validation_fails {C H : Type} (configure : String → Value → C)
    (validate : String → Value → C → List String) (process : C → Value → H)
    (method : String) (self : Controller) (opts : Value) :
    ((Controller.method configure validate process method self opts).threw = true ↔
      validate method self.adapter (configure method opts) ≠ []) ∧
    (validate method self.adapter (configure method opts) ≠ [] →
      (Controller.method configure validate process method self opts).result
          = .error (JsError.error (String.intercalate "\n"
              (validate method self.adapter (configure method opts)))) ∧
      (Controller.method configure validate process method self opts).calls
          = [.configure method opts,
             .validate method self.adapter (configure method opts)] ∧
      ((Controller.method configure validate process method self opts).calls.any
          Call.isProcess) = false) := by
  unfold Controller.method
  by_cases h : validate method self.adapter (configure method opts) = []
  · simp [h, Outcome.threw]
  · have hl : (validate method self.adapter (configure method opts)).length ≠ 0 := by
      simpa using h
    simp [h, hl, Outcome.threw, Call.isProcess]

/-- With two validation failures the `create` factory throws both messages. -/
theorem method_throws_iff_validation_fails_witness :
    (Controller.method (fun _ opts => opts) (fun _ _ _ => ["no store", "no formatter"])
        (fun config _ => config) "create" ⟨[("adapter", str "db")]⟩ Value.undefined).result
      = .error (JsError.error "no store\nno formatter") :=
  ((method_throws_iff_validation_fails (fun _ opts => opts)
      (fun _ _ _ => ["no store", "no formatter"]) (fun config _ => config) "create"
      ⟨[("adapter", str "db")]⟩ Value.undefined).2 (by simp)).1

/-- C5 as stated fails at `opts = null`: the adapter is missing, yet the constructor does
not throw `'No adapter specified.'`; reading `opts.adapter` throws a `TypeError`. -/
theorem constructor_null_opts :
    adapterMissingOrFalsy Value.null = true ∧
    Controller.constructor Value.null
        = .error (JsError.typeError "Cannot read property 'adapter' of null") ∧
    Controller.constructor Value.null ≠ .error (JsError.error "No adapter specified.") := by
  refine ⟨rfl, rfl, ?_⟩
  intro h
  have h2 : Controller.constructor Value.null
      = .error (JsError.typeError "Cannot read property 'adapter' of null") := rfl
  rw [h2] at h
  cases h

/-- C5 amended: for every `opts` other than `null`, constructing a `Controller` throws
`'No adapter specified.'` if and only if `opts.adapter` is missing or falsy (also when
`opts` is omitted); otherwise construction succeeds and the instance's adapter is
`opts.adapter`. -/
theorem constructor_requires_adapter (opts : Value) (hnull : opts ≠ Value.null) :
    (Controller.constructor opts = .error (JsError.error "No adapter specified.") ↔
      adapterMissingOrFalsy opts = true) ∧
    (adapterMissingOrFalsy opts = false →
      ∃ c, Controller.constructor opts = .ok c ∧ c.adapter = field opts "adapter") := by
  have hadapter : ∀ props : Obj Value,
      (({ props := extend [] props } : Controller)).adapter
        = ((List.lookup "adapter" props).getD undefined) := by
    intro props
    unfold Controller.adapter
    rw [lookup_extend]
    unfold mergedWith
    cases List.lookup "adapter" props <;> rfl
  cases opts with
  | null => exact absurd rfl hnull
  | obj props =>
    cases hl : List.lookup "adapter" props with
    | none =>
      simp [Controller.constructor, adapterMissingOrFalsy, Value.getProp, Value.ownProp, hl,
        Value.truthy, bind, Except.bind, throw, throwThe, MonadExceptOf.throw]
    | some v =>
      cases hv : v.truthy
      · simp [Controller.constructor, adapterMissingOrFalsy, Value.getProp, Value.ownProp, hl,
          hv, bind, Except.bind, throw, throwThe, MonadExceptOf.throw]
      · simp [Controller.constructor, adapterMissingOrFalsy, Value.getProp, Value.ownProp, hl,
          hv, bind, Except.bind, throw, throwThe, MonadExceptOf.throw, pure, Except.pure,
          ownEnumerable, hadapter, field]
  | _ =>
    simp [Controller.constructor, adapterMissingOrFalsy, Value.getProp, Value.ownProp,
      Value.truthy, bind, Except.bind, throw, throwThe, MonadExceptOf.throw]

/-- Omitted options are rejected with `'No adapter specified.'`. -/
theorem constructor_requires_adapter_witness :
    Controller.constructor Value.undefined = .error (JsError.error "No adapter specified.") :=
  ((constructor_requires_adapter Value.undefined (by simp)).1).2 rfl

/-- C10: when validation returns an empty list, each of the four factories returns
exactly `process(configure(m, opts), adapter)` for its own fixed method name `m` and the
controller's adapter, after one call of `configure` and one call of `validate`, both
with that same `m`. -/
theorem factories_compose {C H : Type} (configure : String → Value → C)
    (validate : String → Value → C → List String) (process : C → Value → H)
    (self : Controller) (opts : Value) :
    (validate "create" self.adapter (configure "create" opts) = [] →
      Controller.create configure validate process self opts
        = { result := .ok (process (configure "create" opts) self.adapter)
            calls := [.configure "create" opts,
              .validate "create" self.adapter (configure "create" opts),
              .process (configure "create" opts) self.adapter] }) ∧
    (validate "read" self.adapter (configure "read" opts) = [] →
      Controller.read configure validate process self opts
        = { result := .ok (process (configure "read" opts) self.adapter)
            calls := [.configure "read" opts,
              .validate "read" self.adapter (configure "read" opts),
              .process (configure "read" opts) self.adapter] }) ∧
    (validate "update" self.adapter (configure "update" opts) = [] →
      Controller.update configure validate process self opts
        = { result := .ok (process (configure "update" opts) self.adapter)
            calls := [.configure "update" opts,
              .validate "update" self.adapter (configure "update" opts),
              .process (configure "update" opts) self.adapter] }) ∧
    (validate "destroy" self.adapter (configure "destroy" opts) = [] →
      Controller.destroy configure validate process self opts
        = { result := .ok (process (configure "destroy" opts) self.adapter)
            calls := [.configure "destroy" opts,
              .validate "destroy" self.adapter (configure "destroy" opts),
              .process (configure "destroy" opts) self.adapter] }) := by
  refine ⟨?_, ?_, ?_, ?_⟩ <;> intro h
  · simp [Controller.create, Controller.method, h]
  · simp [Controller.read, Controller.method, h]
  · simp [Controller.update, Controller.method, h]
  · simp [Controller.destroy, Controller.method, h]

/-- A validator that only accepts `read`: the `read` factory hands the pair of the
configuration and the adapter to `process`. -/
theorem factories_compose_witness :
    (Controller.read (fun m _ => m) (fun m _ _ => if m = "read" then [] else ["unsupported"])
        (fun config adapter => (config, adapter.truthy)) ⟨[("adapter", str "db")]⟩
        Value.undefined).result = .ok ("read", true) :=
  congrArg Outcome.result
    ((factories_compose (fun m _ => m)
      (fun m _ _ => if m = "read" then [] else ["unsupported"])
      (fun config adapter => (config, adapter.truthy)) ⟨[("adapter", str "db")]⟩
      Value.undefined).2.1 rfl)

/-! ### The store adapter: facts -/

theorem attributes_foldl {V : Type} (step : Record V → RelationAttachment → Record V)
    (hstep : ∀ m rel, (step m rel).attributes = m.attributes)
    (toManyRels : List RelationAttachment) (m : Record V) :
    (toManyRels.foldl step m).attributes = m.attributes := by
  induction toManyRels generalizing m with
  | nil => rfl
  | cons rel rest ih => rw [List.foldl_cons, ih, hstep]

theorem toJSON_relationSteps_mergeStore {V : Type} (m : Record V)
    (toManyRels : List RelationAttachment) :
    (mergeStore V).toJSON (relationSteps (mergeStore V) m toManyRels) = m.attributes := by
  show (relationSteps (mergeStore V) m toManyRels).attributes = m.attributes
  show (toManyRels.foldl (fun m rel => (mergeStore V).attach m rel.name rel.ids)
      (toManyRels.foldl (fun m rel => (mergeStore V).detach m rel.name) m)).attributes
    = m.attributes
  rw [attributes_foldl (fun m rel => (mergeStore V).attach m rel.name rel.ids)
        (fun _ _ => rfl),
      attributes_foldl (fun m rel => (mergeStore V).detach m rel.name) (fun _ _ => rfl)]

/-- The order of the relation steps shows when a relation is named twice: both detaches
come first, so the ids of both entries are attached in the end. -/
theorem relationSteps_detaches_first :
    (relationSteps (mergeStore String) ⟨1, [("title", "a")], [("stores", ["7"])]⟩
        [⟨"stores", ["1"]⟩, ⟨"stores", ["2"]⟩]).relationIds "stores" = ["1", "2"] := by
  rfl

theorem mergedWith_idem {V : Type} (s params : Obj V) (key : String) :
    mergedWith (extend s params) params key = mergedWith s params key := by
  unfold mergedWith
  cases h : params.lookup key with
  | some v => rfl
  | none =>
    show (extend s params).lookup key = s.lookup key
    rw [lookup_extend]
    unfold mergedWith
    rw [h]

theorem mergedWith_of_same {V : Type} (s params : Obj V)
    (hsame : ∀ key ∈ params.map Prod.fst, params.lookup key = s.lookup key) (key : String) :
    mergedWith s params key = s.lookup key := by
  unfold mergedWith
  cases h : params.lookup key with
  | some v =>
    have hmem : key ∈ params.map Prod.fst :=
      (lookup_isSome_iff_mem_keys params key).1 (by simp [h])
    rw [← hsame key hmem, h]
  | none => rfl

theorem fetch_after_attachments {V : Type} (toManyRels : List RelationAttachment)
    (head : Record V) (tail : List (Record V)) (n : Nat) :
    (toManyRels.foldl (fun acc rel => acc.attach head.id rel.name rel.ids)
        ({ records := head :: tail, nextId := n } : Store V)).fetch head.id
      = some { head with related := attachAll head.related toManyRels } := by
  suffices h : ∀ (id : Nat) (head : Record V) (tail : List (Record V)), head.id = id →
      (toManyRels.foldl (fun acc rel => acc.attach id rel.name rel.ids)
        ({ records := head :: tail, nextId := n } : Store V)).fetch id
      = some { head with related := attachAll head.related toManyRels } from
    h head.id head tail rfl
  intro id
  induction toManyRels with
  | nil =>
    intro head tail hid
    subst hid
    simp [Store.fetch, List.find?, attachAll]
  | cons rel rest ih =>
    intro head tail hid
    rw [List.foldl_cons]
    have hstep : Store.attach ({ records := head :: tail, nextId := n } : Store V) id
        rel.name rel.ids
        = Store.mk
            (Record.mk head.id head.attributes
                (assign head.related rel.name (head.relationIds rel.name ++ rel.ids)) ::
              (Store.attach ({ records := tail, nextId := n } : Store V) id
                rel.name rel.ids).records) n := by
      simp [Store.attach, hid]
    rw [hstep]
    exact ih (Record.mk head.id head.attributes
      (assign head.related rel.name (head.relationIds rel.name ++ rel.ids))) _ hid

theorem store_after_attachments {V : Type} (toManyRels : List RelationAttachment)
    (head : Record V) (tail : List (Record V)) (n : Nat)
    (hfresh : ∀ r ∈ tail, r.id ≠ head.id) :
    toManyRels.foldl (fun acc rel => acc.attach head.id rel.name rel.ids)
        ({ records := head :: tail, nextId := n } : Store V)
      = { records := { head with related := attachAll head.related toManyRels } :: tail,
          nextId := n } := by
  suffices h : ∀ (id : Nat) (head : Record V), head.id = id → (∀ r ∈ tail, r.id ≠ id) →
      toManyRels.foldl (fun acc rel => acc.attach id rel.name rel.ids)
        ({ records := head :: tail, nextId := n } : Store V)
      = Store.mk (Record.mk head.id head.attributes (attachAll head.related toManyRels) ::
          tail) n from
    h head.id head rfl hfresh
  intro id
  induction toManyRels with
  | nil =>
    intro head _ _
    rfl
  | cons rel rest ih =>
    intro head hid htail
    rw [List.foldl_cons]
    have hmap : tail.map (fun r : Record V =>
        if r.id = id then
          { r with related := assign r.related rel.name (r.relationIds rel.name ++ rel.ids) }
        else r) = tail := by
      conv_rhs => rw [← List.map_id tail]
      apply List.map_congr_left
      intro r hr
      simp [htail r hr]
    have hstep : Store.attach ({ records := head :: tail, nextId := n } : Store V) id
        rel.name rel.ids
        = Store.mk
            (Record.mk head.id head.attributes
                (assign head.related rel.name (head.relationIds rel.name ++ rel.ids)) ::
              tail) n := by
      simp only [Store.attach, List.map_cons, hid, if_true, hmap]
    rw [hstep]
    exact ih (Record.mk head.id head.attributes
      (assign head.related rel.name (head.relationIds rel.name ++ rel.ids))) hid htail

theorem mem_attachAll (toManyRels : List RelationAttachment)
    (related : Obj (List String)) (name x : String) :
    x ∈ ((attachAll related toManyRels).lookup name).getD [] ↔
      x ∈ (related.lookup name).getD [] ∨
        ∃ rel ∈ toManyRels, rel.name = name ∧ x ∈ rel.ids := by
  induction toManyRels generalizing related with
  | nil => simp [attachAll]
  | cons rel rest ih =>
    have hcons : attachAll related (rel :: rest)
        = attachAll (assign related rel.name
            ((related.lookup rel.name).getD [] ++ rel.ids)) rest := rfl
    rw [hcons, ih, lookup_assign]
    by_cases hn : name = rel.name
    · subst hn
      simp only [if_true, Option.getD_some, List.mem_append, List.mem_cons,
        exists_eq_or_imp, true_and]
      tauto
    · have hn2 : ¬ rel.name = name := fun h => hn h.symm
      simp [hn, hn2]

/-! ### The store adapter: the claims -/

/-- C6: create then read round trip. On a store where save inserts the record, attach
adds the given ids to the named relation and fetch reloads the record by id,
`create(A, R)` returns the record reloaded after all attachments: it carries the fresh id,
it is what reading that id from the resulting store returns, its attributes are `A`, for
every name in `R` (names distinct) its relation ids are exactly the ids given for that
name, as sets, and it has no ids under any other name. When the fresh id is not in use,
the resulting store is the old one with that record inserted. The attachments may be
processed in any order `R'` of `R`. -/
theorem create_read_round_trip {V : Type} (s : Store V) (A : Obj V)
    (R R' : List RelationAttachment) (horder : R'.Perm R)
    (hnames : (R.map RelationAttachment.name).Nodup) :
    ∃ record, (create s A R').2 = some record ∧
      record.attributes = A ∧
      (∀ rel ∈ R, ∀ x, x ∈ record.relationIds rel.name ↔ x ∈ rel.ids) ∧
      (∀ name, name ∉ R.map RelationAttachment.name → record.relationIds name = []) ∧
      record.id = s.nextId ∧
      (create s A R').1.fetch record.id = some record ∧
      ((∀ r ∈ s.records, r.id ≠ s.nextId) →
        (create s A R').1 = { records := record :: s.records, nextId := s.nextId + 1 }) := by
  refine ⟨{ id := s.nextId, attributes := A, related := attachAll [] R' },
    ?_, rfl, ?_, ?_, rfl, ?_, ?_⟩
  · exact fetch_after_attachments R' { id := s.nextId, attributes := A, related := [] }
      s.records (s.nextId + 1)
  · intro rel hrel x
    unfold Record.relationIds
    rw [mem_attachAll]
    constructor
    · rintro (h | ⟨rel', hmem, hname, hx⟩)
      · simp at h
      · have heq : rel' = rel :=
          List.inj_on_of_nodup_map hnames (horder.mem_iff.1 hmem) hrel hname
        rw [← heq]
        exact hx
    · intro hx
      exact Or.inr ⟨rel, horder.mem_iff.2 hrel, rfl, hx⟩
  · intro name hname
    apply List.eq_nil_iff_forall_not_mem.2
    intro x hx
    unfold Record.relationIds at hx
    rw [mem_attachAll] at hx
    rcases hx with h | ⟨rel, hmem, hrel, _⟩
    · simp at h
    · exact hname (List.mem_map.2 ⟨rel, horder.mem_iff.1 hmem, hrel⟩)
  · exact fetch_after_attachments R' { id := s.nextId, attributes := A, related := [] }
      s.records (s.nextId + 1)
  · intro hfresh
    exact store_after_attachments R' { id := s.nextId, attributes := A, related := [] }
      s.records (s.nextId + 1) hfresh

/-- The book of the integration test, created in a store that already holds a book, with
its three relations attached in another order: it is reloaded from the resulting store
with its attributes and with store `1` under `stores`, and the older book is kept. -/
theorem create_read_round_trip_witness :
    ∃ record,
      (create ({ records := [⟨1, [("title", "The Hobbit")], []⟩], nextId := 2 } : Store String)
        [("title", "The Lost Book of Tolkien"), ("date_published", "2015-02-17")]
        [⟨"stores", ["1"]⟩, ⟨"author", ["1"]⟩, ⟨"series", ["1"]⟩]).2 = some record ∧
      record.attributes
        = [("title", "The Lost Book of Tolkien"), ("date_published", "2015-02-17")] ∧
      record.relationIds "stores" = ["1"] ∧
      record.id = 2 ∧
      (create ({ records := [⟨1, [("title", "The Hobbit")], []⟩], nextId := 2 } : Store String)
        [("title", "The Lost Book of Tolkien"), ("date_published", "2015-02-17")]
        [⟨"stores", ["1"]⟩, ⟨"author", ["1"]⟩, ⟨"series", ["1"]⟩]).1
        = { records := [record, ⟨1, [("title", "The Hobbit")], []⟩], nextId := 3 } := by
  obtain ⟨record, hret, hattrs, _, _, hid, _, hstore⟩ :=
    create_read_round_trip
      ({ records := [⟨1, [("title", "The Hobbit")], []⟩], nextId := 2 } : Store String)
      [("title", "The Lost Book of Tolkien"), ("date_published", "2015-02-17")]
      [⟨"author", ["1"]⟩, ⟨"series", ["1"]⟩, ⟨"stores", ["1"]⟩]
      [⟨"stores", ["1"]⟩, ⟨"author", ["1"]⟩, ⟨"series", ["1"]⟩]
      (by decide) (by decide)
  refine ⟨record, hret, hattrs, ?_, hid, hstore (by decide)⟩
  have hrec := Option.some.inj (hret.symm.trans (rfl :
    (create ({ records := [⟨1, [("title", "The Hobbit")], []⟩], nextId := 2 } : Store String)
        [("title", "The Lost Book of Tolkien"), ("date_published", "2015-02-17")]
        [⟨"stores", ["1"]⟩, ⟨"author", ["1"]⟩, ⟨"series", ["1"]⟩]).2
      = some ⟨2, [("title", "The Lost Book of Tolkien"), ("date_published", "2015-02-17")],
          [("stores", ["1"]), ("author", ["1"]), ("series", ["1"])]⟩))
  rw [hrec]
  rfl

/-- C7: for every `params`, `toManyRels` and `previous`, and whatever the model's `save`,
`detach`, `attach` and `toJSON` do, `update` returns `null` exactly when the model's full
state after the save, the detaches and the attaches is deep-equal to `previous` merged
with `params` (`params` winning), and otherwise returns the updated model itself. -/
theorem update_null_iff_state_is_merge {M V : Type} [DecidableEq V] (ops : ModelOps M V)
    (self : M) (params : Obj V) (toManyRels : List RelationAttachment) (previous : Obj V) :
    ((update ops self params toManyRels previous).result = none ↔
      DeepEqual
        (ops.toJSON
          (toManyRels.foldl (fun m rel => ops.attach m rel.name rel.ids)
            (toManyRels.foldl (fun m rel => ops.detach m rel.name) (ops.save self params))))
        (mergedWith previous params)) ∧
    ((update ops self params toManyRels previous).result = none ∨
      (update ops self params toManyRels previous).result
        = some (toManyRels.foldl (fun m rel => ops.attach m rel.name rel.ids)
            (toManyRels.foldl (fun m rel => ops.detach m rel.name)
              (ops.save self params)))) ∧
    (update ops self params toManyRels previous).model
      = toManyRels.foldl (fun m rel => ops.attach m rel.name rel.ids)
          (toManyRels.foldl (fun m rel => ops.detach m rel.name) (ops.save self params)) := by
  have hspec : ∀ state : Obj V,
      isEqual state (extend previous params) = true ↔
        DeepEqual state (mergedWith previous params) := by
    intro state
    rw [isEqual_iff]
    unfold DeepEqual
    simp only [lookup_extend]
  unfold update relationSteps
  by_cases h : isEqual
      (ops.toJSON
        (toManyRels.foldl (fun m rel => ops.attach m rel.name rel.ids)
          (toManyRels.foldl (fun m rel => ops.detach m rel.name) (ops.save self params))))
      (extend previous params) = true
  · simp only [h, if_true, true_iff, true_or, and_true]
    exact (hspec _).1 h
  · simp only [h]
    refine ⟨?_, Or.inr rfl, trivial⟩
    constructor
    · intro hn
      cases hn
    · intro hd
      exact absurd ((hspec _).2 hd) h

/-- C8 as stated fails: on the merge store, with `previous` the state before the update,
changing the title from `a` to `b` is an observable change and the state after the update
differs from the state before, yet `update` returns `null`. -/
theorem update_returns_null_despite_change :
    observableChange [("title", "a")] [("title", "b")] = true ∧
    (update (mergeStore String) ⟨1, [("title", "a")], []⟩ [("title", "b")] []
        [("title", "a")]).model.attributes = [("title", "b")] ∧
    (update (mergeStore String) ⟨1, [("title", "a")], []⟩ [("title", "b")] []
        [("title", "a")]).result = none := by
  refine ⟨by decide, rfl, rfl⟩

/-- C8 amended: for every record, every `params` and relation list, with `previous` the
record's state before the update, on a store whose save is a plain partial merge, `update`
returns `null` whether or not the update made an observable change: the state after
the update is always `previous` merged with `params`. -/
theorem update_on_merge_store_returns_null {V : Type} [DecidableEq V] (self : Record V)
    (params : Obj V) (toManyRels : List RelationAttachment) :
    (update (mergeStore V) self params toManyRels self.attributes).result = none ∧
    DeepEqual ((mergeStore V).toJSON
        (update (mergeStore V) self params toManyRels self.attributes).model)
      (mergedWith self.attributes params) := by
  have hstate : (mergeStore V).toJSON
      (relationSteps (mergeStore V) ((mergeStore V).save self params) toManyRels)
      = extend self.attributes params :=
    toJSON_relationSteps_mergeStore _ _
  constructor
  · unfold update
    simp only [hstate]
    have : isEqual (extend self.attributes params) (extend self.attributes params) = true :=
      (isEqual_iff _ _).2 (fun _ => rfl)
    simp [this]
  · unfold update
    simp only [hstate]
    intro key
    exact lookup_extend _ _ key

/-- C9: update idempotence. When every key of `params` already has the same value in the
record's state `s`, with `previous = s` on the merge store, `update` returns `null` and
leaves every attribute as it was; the identical update performed a second time, with the
same `previous` or with the state observed after the first, returns `null` again. -/
theorem update_idempotent {V : Type} [DecidableEq V] (self : Record V) (params : Obj V)
    (toManyRels : List RelationAttachment)
    (hsame : ∀ key ∈ params.map Prod.fst, params.lookup key = self.attributes.lookup key) :
    (update (mergeStore V) self params toManyRels self.attributes).result = none ∧
    (∀ key, (update (mergeStore V) self params toManyRels self.attributes).model.attributes.lookup
        key = self.attributes.lookup key) ∧
    (update (mergeStore V)
        (update (mergeStore V) self params toManyRels self.attributes).model
        params toManyRels self.attributes).result = none ∧
    (update (mergeStore V)
        (update (mergeStore V) self params toManyRels self.attributes).model
        params toManyRels
        (update (mergeStore V) self params toManyRels self.attributes).model.attributes).result
      = none := by
  have hstate : ∀ m : Record V, (mergeStore V).toJSON
      (relationSteps (mergeStore V) ((mergeStore V).save m params) toManyRels)
      = extend m.attributes params :=
    fun m => toJSON_relationSteps_mergeStore _ _
  have hmodel : (update (mergeStore V) self params toManyRels self.attributes).model.attributes
      = extend self.attributes params := hstate self
  have hnull : ∀ (m : Record V) (previous : Obj V),
      (∀ key, (extend m.attributes params).lookup key = (extend previous params).lookup key) →
      (update (mergeStore V) m params toManyRels previous).result = none := by
    intro m previous h
    unfold update
    simp only [hstate]
    have : isEqual (extend m.attributes params) (extend previous params) = true :=
      (isEqual_iff _ _).2 h
    simp [this]
  refine ⟨hnull self _ (fun _ => rfl), ?_, ?_, ?_⟩
  · intro key
    rw [hmodel, lookup_extend]
    exact mergedWith_of_same _ _ hsame key
  · apply hnull
    intro key
    rw [hmodel, lookup_extend, lookup_extend]
    exact mergedWith_idem _ _ key
  · apply hnull
    intro key
    rfl

/-- Updating a book with the title it already has, twice. -/
theorem update_idempotent_witness :
    (update (mergeStore String) ⟨1, [("title", "a"), ("year", "2015")], []⟩
        [("title", "a")] [⟨"stores", ["1"]⟩] [("title", "a"), ("year", "2015")]).result
      = none :=
  (update_idempotent (⟨1, [("title", "a"), ("year", "2015")], []⟩ : Record String)
    [("title", "a")] [⟨"stores", ["1"]⟩] (by decide)).1

end Endpoints
